import Mathlib

/-!
Verification of the real-time audio scheduling core of the bass-practice
trainer: the recording-metronome look-ahead scheduler
(`useRecordingMetronome` in MetronomeControls.jsx), the audio output
service (AudioService.js) and the loop-mode playhead animator
(useLoopMode.js).  Times and gain levels are modelled as exact rationals;
the pitch computation, which involves `2^(fret/12)`, is modelled over the
reals.  Mutable refs and published React state become fields of explicit
state records; callback invocations (`onPreRollComplete`,
`onLoopRestart`) are recorded in ghost event lists / counters.
-/

namespace BassCore

/-- JavaScript's `%` remainder on numbers, restricted to the use sites in
this code base where the dividend is non-negative and the divisor is
positive; there `a % b = a - b * floor (a / b)`. -/
def jsMod (a b : ℚ) : ℚ := a - b * (⌊a / b⌋ : ℚ)

/-! ## Metronome scheduler (useRecordingMetronome, MetronomeControls.jsx) -/

/-- Observable events emitted by one pass of the scheduler loop body:
a pre-roll click, a normal click (accent flag and the published 1-based
`currentBeat`), or the `onPreRollComplete` callback firing.  The
completion event records the values of `beatCountRef` and
`preRollCountRef` at the moment the callback is invoked. -/
inductive MetEvent
  | preRollClick (accent : Bool)
  | normalClick (accent : Bool) (currentBeat : ℤ)
  | preRollComplete (beatCountAtFire : ℤ) (preRollCountAtFire : ℕ)
deriving DecidableEq, Repr

/-- `true` exactly on `preRollComplete` events. -/
def MetEvent.isComplete : MetEvent → Bool
  | .preRollComplete _ _ => true
  | _ => false

/-- How many times the pre-roll-complete notification occurs in a trace. -/
def completionCount (l : List MetEvent) : ℕ := l.countP MetEvent.isComplete

/-- State of the recording metronome hook: the React state values
(`tempo`, `timeSignature`, `isPlaying`, `isPreRoll`, `currentBeat`,
`preRollBeat`) and the refs (`beatCountRef`, `preRollCountRef`,
`nextBeatTimeRef`, `timerIdRef` abstracted to a Boolean), plus a ghost
trace of emitted events. -/
structure MetState where
  tempo : ℚ
  timeSignature : ℕ
  isPlaying : Bool
  isPreRoll : Bool
  currentBeat : ℤ
  preRollBeat : ℕ
  beatCount : ℤ
  preRollCount : ℕ
  nextBeatTime : ℚ
  timerActive : Bool
  events : List MetEvent
deriving DecidableEq, Repr

/-- The initial hook state (all counters 0, not playing). -/
def initMetState (tempo : ℚ) (timeSignature : ℕ) : MetState :=
  { tempo := tempo
    timeSignature := timeSignature
    isPlaying := false
    isPreRoll := false
    currentBeat := 0
    preRollBeat := 0
    beatCount := 0
    preRollCount := 0
    nextBeatTime := 0
    timerActive := false
    events := [] }

/-- One iteration of the `while` body of `scheduleNextBeat`
(MetronomeControls.jsx lines 359-384): compute `beatInBar` and the
accent flag; in pre-roll mode play the pre-roll click, bump
`preRollCountRef`, publish `preRollBeat`, and on reaching
`timeSignature * preRollBars` clear the pre-roll flag, zero both
counters and fire `onPreRollComplete` (the event records the counter
values at that moment); in normal mode play the click and publish
`currentBeat = beatInBar + 1`.  In both modes the iteration ends with
`beatCountRef.current++` and `nextBeatTimeRef.current += secondsPerBeat`. -/
def emitBeat (preRollBars : ℕ) (s : MetState) : MetState :=
  let secondsPerBeat : ℚ := 60 / s.tempo
  let beatInBar : ℤ := s.beatCount % (s.timeSignature : ℤ)
  let isAccent : Bool := beatInBar == 0
  if s.isPreRoll then
    let s1 : MetState :=
      { s with
        preRollCount := s.preRollCount + 1
        preRollBeat := s.preRollCount + 1
        events := s.events ++ [MetEvent.preRollClick isAccent] }
    let s2 : MetState :=
      if s.timeSignature * preRollBars ≤ s1.preRollCount then
        let s1r : MetState := { s1 with isPreRoll := false, preRollCount := 0, beatCount := 0 }
        { s1r with events := s1r.events ++ [MetEvent.preRollComplete s1r.beatCount s1r.preRollCount] }
      else s1
    { s2 with beatCount := s2.beatCount + 1, nextBeatTime := s2.nextBeatTime + secondsPerBeat }
  else
    { s with
      currentBeat := beatInBar + 1
      events := s.events ++ [MetEvent.normalClick isAccent (beatInBar + 1)]
      beatCount := s.beatCount + 1
      nextBeatTime := s.nextBeatTime + secondsPerBeat }

/-- Iterate `emitBeat` `n` times (the beats emitted by successive
passes of the look-ahead loop, in order). -/
def runBeats (preRollBars : ℕ) : ℕ → MetState → MetState
  | 0, s => s
  | Nat.succ n, s => runBeats preRollBars n (emitBeat preRollBars s)

/-- `start(withPreRoll)` (MetronomeControls.jsx lines 398-421): zero both
counter refs, set `nextBeatTime` to `now + 0.05`, set or clear the
pre-roll flag (publishing `preRollBeat = 0` when pre-roll is requested),
mark playing, publish `currentBeat = 0` and arm the driving timer. -/
def startMet (withPreRoll : Bool) (now : ℚ) (s : MetState) : MetState :=
  let s1 : MetState := { s with beatCount := 0, preRollCount := 0, nextBeatTime := now + 0.05 }
  let s2 : MetState :=
    if withPreRoll then { s1 with isPreRoll := true, preRollBeat := 0 }
    else { s1 with isPreRoll := false }
  { s2 with isPlaying := true, currentBeat := 0, timerActive := true }

/-- `stop()` (MetronomeControls.jsx lines 426-438): cancel the driving
timer and reset `isPlaying`, `isPreRoll`, `currentBeat`, `preRollBeat`
and both counter refs to their initial values. -/
def stopMet (s : MetState) : MetState :=
  { s with
    timerActive := false
    isPlaying := false
    isPreRoll := false
    currentBeat := 0
    preRollBeat := 0
    beatCount := 0
    preRollCount := 0 }

/-- `startForPlayback(startTime)` (MetronomeControls.jsx lines 444-461):
join the metronome mid-playback by setting
`beatCount = floor(startTime / secondsPerBeat)` and
`nextBeatTime = now + (secondsPerBeat - startTime % secondsPerBeat)`,
then mark playing, clear pre-roll and publish the 1-based current beat. -/
def startForPlayback (startTime now : ℚ) (s : MetState) : MetState :=
  let secondsPerBeat : ℚ := 60 / s.tempo
  let s1 : MetState :=
    { s with
      beatCount := ⌊startTime / secondsPerBeat⌋
      nextBeatTime := now + (secondsPerBeat - jsMod startTime secondsPerBeat) }
  { s1 with
    isPlaying := true
    isPreRoll := false
    currentBeat := s1.beatCount % (s1.timeSignature : ℤ) + 1
    timerActive := true }

/-! ## Audio output service (AudioService.js) -/

/-- One scheduled gain-automation event on an audio parameter:
`setValueAtTime` or `linearRampToValueAtTime`, each with its target
value and schedule time. -/
inductive AutoEvent
  | setValue (v t : ℚ)
  | linearRamp (target t : ℚ)
deriving DecidableEq, Repr

/-- Schedule time of an automation event. -/
def AutoEvent.time : AutoEvent → ℚ
  | .setValue _ t => t
  | .linearRamp _ t => t

/-- `true` exactly on `linearRamp` events. -/
def AutoEvent.isRamp : AutoEvent → Bool
  | .linearRamp _ _ => true
  | _ => false

/-- A Web Audio `AudioParam` (a gain), modelled by its intrinsic `value`
(read and written by `gain.value`) and the list of scheduled automation
events, kept in scheduling order. -/
structure AudioParam where
  value : ℚ
  events : List AutoEvent
deriving DecidableEq, Repr

/-- `param.cancelScheduledValues(t)`: remove every automation event
scheduled at or after `t`. -/
def cancelScheduledValues (t : ℚ) (p : AudioParam) : AudioParam :=
  { p with events := p.events.filter (fun e => decide (e.time < t)) }

/-- `param.setValueAtTime(v, t)`: append a set-value automation event. -/
def setValueAtTime (v t : ℚ) (p : AudioParam) : AudioParam :=
  { p with events := p.events ++ [AutoEvent.setValue v t] }

/-- `param.linearRampToValueAtTime(v, t)`: append a linear-ramp
automation event. -/
def linearRampToValueAtTime (v t : ℚ) (p : AudioParam) : AudioParam :=
  { p with events := p.events ++ [AutoEvent.linearRamp v t] }

/-- The value the parameter holds once all scheduled automation has run
(the target of the last scheduled event, or the intrinsic value when no
automation is scheduled). -/
def endValue (p : AudioParam) : ℚ :=
  match p.events.getLast? with
  | some (AutoEvent.setValue v _) => v
  | some (AutoEvent.linearRamp v _) => v
  | none => p.value

/-- Number of ramp events still scheduled at or after time `t`. -/
def pendingRampCount (t : ℚ) (p : AudioParam) : ℕ :=
  (p.events.filter (fun e => decide (t ≤ e.time))).countP AutoEvent.isRamp

/-- State of the `AudioService` singleton: whether the context exists,
the audio clock, the two master gains (absent until `init`), the two
sample buffers (`true` once decoded), and a ghost count of buffer
sources created so far. -/
structure AudioSvcState where
  hasContext : Bool
  currentTime : ℚ
  bassGain : Option AudioParam
  metronomeGain : Option AudioParam
  bassBuffer : Bool
  metronomeClickBuffer : Bool
  sourcesCreated : ℕ
deriving DecidableEq, Repr

/-- `init()` (AudioService.js lines 34-49): when no context exists,
create it together with the two persistent master gains (bass at 0.7,
metronome at 0.5); a second call is a no-op. -/
def initService (s : AudioSvcState) : AudioSvcState :=
  if s.hasContext then s
  else
    { s with
      hasContext := true
      bassGain := some { value := 0.7, events := [] }
      metronomeGain := some { value := 0.5, events := [] } }

/-- `setBassVolume(volume)` (AudioService.js lines 92-96): when the bass
master gain exists, assign `gain.value = volume` directly (no ramp, no
clamping). -/
def setBassVolume (volume : ℚ) (s : AudioSvcState) : AudioSvcState :=
  match s.bassGain with
  | some g => { s with bassGain := some { g with value := volume } }
  | none => s

/-- `setMetronomeVolume(volume)` (AudioService.js lines 101-105):
direct assignment to the metronome master gain, same shape as
`setBassVolume`. -/
def setMetronomeVolume (volume : ℚ) (s : AudioSvcState) : AudioSvcState :=
  match s.metronomeGain with
  | some g => { s with metronomeGain := some { g with value := volume } }
  | none => s

/-- The per-gain body of `stopAllSounds` (AudioService.js lines 117-127):
cancel scheduled values at the current time, snapshot the current gain
value with `setValueAtTime(value, t)`, then linearly ramp to 0 at
`t + 0.01`. -/
def muteGain (t : ℚ) (p : AudioParam) : AudioParam :=
  let p1 := cancelScheduledValues t p
  let p2 := setValueAtTime p1.value t p1
  linearRampToValueAtTime 0 (t + 0.01) p2

/-- `stopAllSounds()` (AudioService.js lines 111-128): no context means
no-op; otherwise apply the cancel/snapshot/ramp sequence to each master
gain that exists. -/
def stopAllSounds (s : AudioSvcState) : AudioSvcState :=
  if s.hasContext then
    { s with
      bassGain := s.bassGain.map (muteGain s.currentTime)
      metronomeGain := s.metronomeGain.map (muteGain s.currentTime) }
  else s

/-- `playSampleNote` state effect (AudioService.js lines 208-238): guard
on the bass buffer and master gain, then create one buffer source (the
pitch computation of the same function is modelled separately below as
`targetFreq`/`playbackRate`). -/
def playSampleNote (s : AudioSvcState) : AudioSvcState :=
  if s.bassBuffer && s.bassGain.isSome then { s with sourcesCreated := s.sourcesCreated + 1 }
  else s

/-- `playSound(string, fret, time, muted)` (AudioService.js lines
195-202): no context or muted means no-op; otherwise play the sample
only if the bass buffer is loaded. -/
def playSound (muted : Bool) (s : AudioSvcState) : AudioSvcState :=
  if !s.hasContext || muted then s
  else if s.bassBuffer then playSampleNote s
  else s

/-- `playSampleMetronome` state effect (AudioService.js lines 260-283):
guard on the click buffer and master gain, then create one buffer
source. -/
def playSampleMetronome (s : AudioSvcState) : AudioSvcState :=
  if s.metronomeClickBuffer && s.metronomeGain.isSome then
    { s with sourcesCreated := s.sourcesCreated + 1 }
  else s

/-- `playMetronomeClick(time, isDownbeat, isFirstOfBeat, enabled)`
(AudioService.js lines 247-254): no context or disabled means no-op;
otherwise play the click sample only if its buffer is loaded. -/
def playMetronomeClick (enabled : Bool) (s : AudioSvcState) : AudioSvcState :=
  if !s.hasContext || !enabled then s
  else if s.metronomeClickBuffer then playSampleMetronome s
  else s

/-! ### Pitch computation of `playSampleNote` (AudioService.js lines 211-218)

`STRING_FREQUENCIES` and `SAMPLE_CONFIG` live in
`src/config/audioConfig.js`, which is not in the source tree; the two
values the spec fixes are modelled from it below. -/

/-- Modelled from the spec: `src/config/audioConfig.js` is missing from
the tree; the spec gives `openStringFrequency['E'] = 41.2` Hz. -/
noncomputable def STRING_FREQUENCY_E : ℝ := 41.2

/-- Modelled from the spec: `src/config/audioConfig.js` is missing from
the tree; the spec gives `sampleBaseFrequency = 41.2` Hz for the bass
sample (`SAMPLE_CONFIG.bass.baseFrequency`). -/
noncomputable def sampleBaseFrequency : ℝ := 41.2

/-- `targetFreq = baseFreq * Math.pow(2, fret / 12)` (AudioService.js
line 215), with the open-string frequency passed as `openFreq`. -/
noncomputable def targetFreq (openFreq : ℝ) (fret : ℕ) : ℝ :=
  openFreq * (2 : ℝ) ^ ((fret : ℝ) / 12)

/-- `playbackRate = targetFreq / bassConfig.baseFrequency`
(AudioService.js line 218). -/
noncomputable def playbackRate (openFreq : ℝ) (fret : ℕ) : ℝ :=
  targetFreq openFreq fret / sampleBaseFrequency

/-! ## Loop-mode playhead animator (useLoopMode.js) -/

/-- Modelled from the spec: `src/config/uiConfig.js` is missing from the
tree; the spec's loop-duration example (`tempo=120, beatsPerMeasure=4`)
fixes `RHYTHM_CONFIG.beatsPerMeasure = 4`. -/
def beatsPerMeasure : ℕ := 4

/-- Modelled from the spec: `src/config/uiConfig.js` is missing from the
tree; the tablature splits each measure into 12 note cells over 4 beats,
so `RHYTHM_CONFIG.tripletsPerBeat = 3`. -/
def tripletsPerBeat : ℕ := 3

/-- `getLoopDuration` (useLoopMode.js lines 63-65):
`(60 / tempo) * beatsPerMeasure * loopLength` seconds. -/
def loopDurationOf (tempo loopLength : ℚ) : ℚ :=
  60 / tempo * (beatsPerMeasure : ℚ) * loopLength

/-- State of the playhead animator: `startTimeRef`, `lastLoopCountRef`,
the published `playhead` and `highlightNoteIndex`, and a ghost count of
`onLoopRestart` invocations. -/
structure LoopState where
  startTime : ℚ
  lastLoopCount : ℤ
  playhead : ℚ
  highlightNoteIndex : ℤ
  restartsFired : ℕ
deriving DecidableEq, Repr

/-- One animation frame of `tick` (useLoopMode.js lines 71-116) at audio
time `now`: negative elapsed is a no-op frame; otherwise compute
`progress = (elapsed % loopDuration) / loopDuration`, fire
`onLoopRestart` exactly when `floor(elapsed / loopDuration)` exceeds the
last observed loop count (updating it), publish the playhead and derive
`highlightNoteIndex = floor(progress * beatsPerMeasure * loopLength) *
tripletsPerBeat`. -/
def tick (tempo loopLength now : ℚ) (s : LoopState) : LoopState :=
  let loopDuration := loopDurationOf tempo loopLength
  let elapsed := now - s.startTime
  if elapsed < 0 then s
  else
    let progress := jsMod elapsed loopDuration / loopDuration
    let currentLoopCount : ℤ := ⌊elapsed / loopDuration⌋
    let s1 : LoopState :=
      if s.lastLoopCount < currentLoopCount then
        { s with lastLoopCount := currentLoopCount, restartsFired := s.restartsFired + 1 }
      else s
    let beatProgress := progress * (beatsPerMeasure : ℚ) * loopLength
    let currentBeat : ℤ := ⌊beatProgress⌋
    { s1 with
      playhead := progress
      highlightNoteIndex := currentBeat * (tripletsPerBeat : ℤ) }

/-- Run `tick` over a list of frame times, recording `restartsFired`
after each frame. -/
def tickTrace (tempo loopLength : ℚ) (s : LoopState) : List ℚ → List ℕ
  | [] => []
  | t :: ts =>
    let s1 := tick tempo loopLength t s
    s1.restartsFired :: tickTrace tempo loopLength s1 ts

/-- The animator state right after `start()` (useLoopMode.js lines
121-146) with the audio clock at 0: `startTime = now`,
`lastLoopCount = 0`, playhead 0, highlight index 0. -/
def loopStart0 : LoopState :=
  { startTime := 0, lastLoopCount := 0, playhead := 0, highlightNoteIndex := 0,
    restartsFired := 0 }

/-- `seek(position)` (useLoopMode.js lines 164-175): clamp the position
with `Math.max(0, Math.min(1, position))`, publish it as the playhead,
and — when the audio context is available — rewrite
`startTime = now - clamped * loopDuration`. -/
def seek (ctxAvailable : Bool) (tempo loopLength now position : ℚ) (s : LoopState) : LoopState :=
  let clamped := max 0 (min 1 position)
  let s1 : LoopState := { s with playhead := clamped }
  if ctxAvailable then
    { s1 with startTime := now - clamped * loopDurationOf tempo loopLength }
  else s1

/-! ## Shared concrete states and helper lemmas -/

/-- The audio service before `init()` is first called. -/
def svc0 : AudioSvcState :=
  { hasContext := false, currentTime := 0, bassGain := none, metronomeGain := none,
    bassBuffer := false, metronomeClickBuffer := false, sourcesCreated := 0 }

/-- A normal-mode scheduler state five beats into a 4/4 session. -/
def exC2 : MetState := { initMetState 100 4 with beatCount := 5 }

lemma filter_ge_of_filter_lt (t : ℚ) (l : List AutoEvent) :
    (l.filter (fun e => decide (e.time < t))).filter (fun e => decide (t ≤ e.time)) = [] := by
  induction l with
  | nil => rfl
  | cons e es ih =>
    by_cases h : e.time < t
    · simp only [List.filter_cons]
      simp [h, not_le.mpr h, ih]
    · simp only [List.filter_cons]
      simp [h, ih]

lemma filter_lt_idem (t : ℚ) (l : List AutoEvent) :
    (l.filter (fun e => decide (e.time < t))).filter (fun e => decide (e.time < t)) =
      l.filter (fun e => decide (e.time < t)) := by
  induction l with
  | nil => rfl
  | cons e es ih =>
    by_cases h : e.time < t <;> simp [List.filter_cons, h, ih]

lemma endValue_muteGain (t : ℚ) (p : AudioParam) : endValue (muteGain t p) = 0 := by
  unfold endValue muteGain linearRampToValueAtTime setValueAtTime cancelScheduledValues
  simp [List.getLast?_concat]

lemma getLast_muteGain (t : ℚ) (p : AudioParam) :
    (muteGain t p).events.getLast? = some (AutoEvent.linearRamp 0 (t + 0.01)) := by
  unfold muteGain linearRampToValueAtTime setValueAtTime cancelScheduledValues
  simp [List.getLast?_concat]

lemma pendingRampCount_muteGain (t : ℚ) (p : AudioParam) :
    pendingRampCount t (muteGain t p) = 1 := by
  unfold pendingRampCount muteGain linearRampToValueAtTime setValueAtTime cancelScheduledValues
  rw [List.filter_append, List.filter_append, filter_ge_of_filter_lt]
  simp only [List.nil_append, List.filter_cons, AutoEvent.time, List.filter_nil]
  have h1 : decide (t ≤ t) = true := by simp
  have h2 : decide (t ≤ t + 0.01) = true := by
    simp only [decide_eq_true_eq]
    norm_num
  rw [h1, h2]
  simp [List.countP_cons, AutoEvent.isRamp]

lemma muteGain_idem (t : ℚ) (p : AudioParam) : muteGain t (muteGain t p) = muteGain t p := by
  unfold muteGain linearRampToValueAtTime setValueAtTime cancelScheduledValues
  simp only [List.filter_append, filter_lt_idem, List.filter_cons, AutoEvent.time,
    List.filter_nil]
  have h2 : decide (t < t) = false := by simp
  have h3 : decide (t + 0.01 < t) = false := by
    simp only [decide_eq_false_iff_not, not_lt]
    norm_num
  rw [h2, h3]
  simp

lemma emitBeat_not_preRoll (pb : ℕ) (s : MetState) (h : s.isPreRoll = false) :
    (emitBeat pb s).isPreRoll = false ∧
    completionCount (emitBeat pb s).events = completionCount s.events := by
  unfold emitBeat
  rw [h]
  simp [completionCount, MetEvent.isComplete]

lemma runBeats_completion_stable (pb : ℕ) : ∀ (n : ℕ) (s : MetState), s.isPreRoll = false →
    (runBeats pb n s).isPreRoll = false ∧
    completionCount (runBeats pb n s).events = completionCount s.events := by
  intro n
  induction n with
  | zero => intro s h; exact ⟨h, rfl⟩
  | succ k ih =>
    intro s h
    have h1 := emitBeat_not_preRoll pb s h
    have h2 := ih (emitBeat pb s) h1.1
    exact ⟨h2.1, by rw [runBeats]; rw [h2.2, h1.2]⟩

lemma runBeats_add (pb : ℕ) : ∀ (m n : ℕ) (s : MetState),
    runBeats pb (m + n) s = runBeats pb n (runBeats pb m s) := by
  intro m
  induction m with
  | zero => intro n s; rw [Nat.zero_add]; rfl
  | succ k ih =>
    intro n s
    have he : k + 1 + n = k + n + 1 := by omega
    rw [he]
    show runBeats pb (k + n) (emitBeat pb s) = runBeats pb n (runBeats pb (k + 1) s)
    rw [ih]
    rfl

/-! ## Claim theorems -/

/-- C1: starting the scheduler with pre-roll active, `timeSignature = 4` and
`preRollBars = 1` emits exactly 4 pre-roll beats and then the single
pre-roll-complete event, which observes `BeatCounter = 0` and
`PreRollCounter = 0`; the completion fires exactly once over any
continuation of the session; and in general a pre-roll scheduler pass
completes the pre-roll exactly when the incremented `PreRollCounter`
reaches `timeSignature * preRollBars`. -/
theorem preroll_termination_correct :
    ((runBeats 1 4 (startMet true 0 (initMetState 100 4))).events =
      [MetEvent.preRollClick true, MetEvent.preRollClick false, MetEvent.preRollClick false,
       MetEvent.preRollClick false, MetEvent.preRollComplete 0 0] ∧
     (∀ n : ℕ, 4 ≤ n →
       completionCount (runBeats 1 n (startMet true 0 (initMetState 100 4))).events = 1)) ∧
    (∀ (preRollBars : ℕ) (s : MetState), s.isPreRoll = true →
      (completionCount (emitBeat preRollBars s).events = completionCount s.events + 1 ↔
        s.timeSignature * preRollBars ≤ s.preRollCount + 1)) := by
  refine ⟨⟨by decide, ?_⟩, ?_⟩
  · intro n hn
    obtain ⟨k, rfl⟩ : ∃ k, n = 4 + k := ⟨n - 4, by omega⟩
    rw [runBeats_add]
    have h1 : (runBeats 1 4 (startMet true 0 (initMetState 100 4))).isPreRoll = false := by
      decide
    have h2 : completionCount (runBeats 1 4 (startMet true 0 (initMetState 100 4))).events = 1 := by
      decide
    rw [(runBeats_completion_stable 1 k _ h1).2, h2]
  · intro preRollBars s h
    unfold emitBeat
    rw [h]
    by_cases hc : s.timeSignature * preRollBars ≤ s.preRollCount + 1
    · simp [hc, completionCount, MetEvent.isComplete]
    · simp [hc, completionCount, MetEvent.isComplete]

/-- Witness for C1: in the session of `preroll_termination_correct`,
five scheduler passes still show exactly one completion, and the fourth
pre-roll pass (pre-roll counter at 3) is exactly the one that completes. -/
theorem preroll_termination_correct_witness :
    completionCount (runBeats 1 5 (startMet true 0 (initMetState 100 4))).events = 1 ∧
    (completionCount (emitBeat 1 (runBeats 1 3 (startMet true 0 (initMetState 100 4)))).events =
        completionCount (runBeats 1 3 (startMet true 0 (initMetState 100 4))).events + 1 ↔
      (runBeats 1 3 (startMet true 0 (initMetState 100 4))).timeSignature * 1 ≤
        (runBeats 1 3 (startMet true 0 (initMetState 100 4))).preRollCount + 1) :=
  ⟨preroll_termination_correct.1.2 5 (by decide),
   preroll_termination_correct.2 1 _ (by decide)⟩

/-- C2: in normal mode with `BeatCounter ≥ 0` and `timeSignature ≥ 1`,
`beatInBar = BeatCounter mod timeSignature` lies in `[0, timeSignature)`,
the emitted click's accent flag is true iff `beatInBar = 0`, and the
published `currentBeat` equals `beatInBar + 1`. -/
theorem normal_beat_invariant (preRollBars : ℕ) (s : MetState)
    (hpr : s.isPreRoll = false) (hts : 0 < s.timeSignature) (hbc : 0 ≤ s.beatCount) :
    0 ≤ s.beatCount % (s.timeSignature : ℤ) ∧
    s.beatCount % (s.timeSignature : ℤ) < (s.timeSignature : ℤ) ∧
    ((s.beatCount % (s.timeSignature : ℤ) == 0) = true ↔
      s.beatCount % (s.timeSignature : ℤ) = 0) ∧
    (emitBeat preRollBars s).events = s.events ++
      [MetEvent.normalClick (s.beatCount % (s.timeSignature : ℤ) == 0)
        (s.beatCount % (s.timeSignature : ℤ) + 1)] ∧
    (emitBeat preRollBars s).currentBeat = s.beatCount % (s.timeSignature : ℤ) + 1 := by
  have hne : (s.timeSignature : ℤ) ≠ 0 := by
    exact_mod_cast Nat.pos_iff_ne_zero.mp hts
  refine ⟨Int.emod_nonneg _ hne, ?_, by simp, ?_, ?_⟩
  · exact Int.emod_lt_of_pos _ (by exact_mod_cast hts)
  · unfold emitBeat
    rw [hpr]
    simp
  · unfold emitBeat
    rw [hpr]
    simp

/-- Witness for C2: a 4/4 normal-mode state five beats in publishes
`currentBeat = 5 mod 4 + 1 = 2`. -/
theorem normal_beat_invariant_witness :
    (emitBeat 1 exC2).currentBeat = exC2.beatCount % (exC2.timeSignature : ℤ) + 1 :=
  (normal_beat_invariant 1 exC2 rfl (by decide) (by decide)).2.2.2.2

/-- C3: `startForPlayback` sets `BeatCounter = floor(startTime / secondsPerBeat)`
and the first scheduled beat time to
`now + (secondsPerBeat - startTime mod secondsPerBeat)`; for
`startTime = 1.5` s and `tempo = 120` this gives `BeatCounter = 3` and a
first beat at `now + 0.5` s. -/
theorem startForPlayback_sync :
    (∀ (startTime now : ℚ) (s : MetState), 0 ≤ startTime → 0 < s.tempo →
      (startForPlayback startTime now s).beatCount = ⌊startTime / (60 / s.tempo)⌋ ∧
      (startForPlayback startTime now s).nextBeatTime =
        now + (60 / s.tempo - jsMod startTime (60 / s.tempo))) ∧
    (∀ now : ℚ, (startForPlayback (3/2) now (initMetState 120 4)).beatCount = 3 ∧
      (startForPlayback (3/2) now (initMetState 120 4)).nextBeatTime = now + 1/2) := by
  constructor
  · intro startTime now s hst ht
    exact ⟨rfl, rfl⟩
  · intro now
    constructor
    · norm_num [startForPlayback, initMetState]
    · norm_num [startForPlayback, initMetState, jsMod]

/-- Witness for C3: the general clause of `startForPlayback_sync`
instantiated at `startTime = 3/2`, `now = 0`, `tempo = 120`. -/
theorem startForPlayback_sync_witness :
    (startForPlayback (3/2) 0 (initMetState 120 4)).beatCount =
      ⌊(3/2 : ℚ) / (60 / (initMetState 120 4).tempo)⌋ ∧
    (startForPlayback (3/2) 0 (initMetState 120 4)).nextBeatTime =
      0 + (60 / (initMetState 120 4).tempo - jsMod (3/2) (60 / (initMetState 120 4).tempo)) :=
  startForPlayback_sync.1 (3/2) 0 (initMetState 120 4) (by norm_num)
    (by norm_num [initMetState])

/-- C4: a playhead-animator frame with non-negative elapsed time fires the
loop-restart notification exactly when `floor(elapsed / loopDuration)`
exceeds the last observed loop count (updating that count); with
`tempo = 120`, `beatsPerMeasure = 4`, `loopLength = 1` the loop duration is
2 s and a frame sequence crossing 2 s, 4 s and 6 s fires exactly one
notification at each crossing — no duplicates, no misses. -/
theorem loop_restart_once_per_wrap :
    (∀ (tempo loopLength now : ℚ) (s : LoopState), 0 ≤ now - s.startTime →
      (tick tempo loopLength now s).restartsFired =
        (if s.lastLoopCount < ⌊(now - s.startTime) / loopDurationOf tempo loopLength⌋
          then s.restartsFired + 1 else s.restartsFired) ∧
      (tick tempo loopLength now s).lastLoopCount =
        (if s.lastLoopCount < ⌊(now - s.startTime) / loopDurationOf tempo loopLength⌋
          then ⌊(now - s.startTime) / loopDurationOf tempo loopLength⌋
          else s.lastLoopCount)) ∧
    loopDurationOf 120 1 = 2 ∧
    tickTrace 120 1 loopStart0 [1/2, 19/10, 21/10, 3, 39/10, 21/5, 11/2, 601/100] =
      [0, 0, 1, 1, 1, 2, 2, 3] := by
  refine ⟨?_, by norm_num [loopDurationOf, beatsPerMeasure], ?_⟩
  · intro tempo loopLength now s hel
    simp only [tick]
    rw [if_neg (not_lt.mpr hel)]
    by_cases hc : s.lastLoopCount < ⌊(now - s.startTime) / loopDurationOf tempo loopLength⌋
    · simp [hc]
    · simp [hc]
  · norm_num [tickTrace, tick, loopStart0, loopDurationOf, jsMod, beatsPerMeasure,
      tripletsPerBeat]

/-- Witness for C4: a frame at `now = 3` s from a fresh start
(elapsed `3 ≥ 0`) evaluates the firing rule of
`loop_restart_once_per_wrap`. -/
theorem loop_restart_once_per_wrap_witness :
    (tick 120 1 3 loopStart0).restartsFired =
      (if loopStart0.lastLoopCount < ⌊((3 : ℚ) - loopStart0.startTime) / loopDurationOf 120 1⌋
        then loopStart0.restartsFired + 1 else loopStart0.restartsFired) :=
  (loop_restart_once_per_wrap.1 120 1 3 loopStart0 (by norm_num [loopStart0])).1

/-- C5: `playSampleNote` computes
`playbackRate = openStringFrequency * 2^(fret/12) / sampleBaseFrequency`,
and with the E string's 41.2 Hz open frequency equal to the sample base
frequency, fret 12 yields `playbackRate = 2` (one octave up). -/
theorem playbackRate_octave :
    playbackRate STRING_FREQUENCY_E 12 = 2 ∧
    ∀ (openFreq : ℝ) (fret : ℕ),
      playbackRate openFreq fret =
        openFreq * (2 : ℝ) ^ ((fret : ℝ) / 12) / sampleBaseFrequency := by
  constructor
  · unfold playbackRate targetFreq STRING_FREQUENCY_E sampleBaseFrequency
    have h12 : ((12 : ℕ) : ℝ) / 12 = 1 := by norm_num
    rw [h12, Real.rpow_one]
    norm_num
  · intro openFreq fret
    rfl

/-- C6: on an initialized service, `stopAllSounds` leaves every master
gain with exactly one pending ramp — a linear ramp to 0 at
`currentTime + 0.01` — ending at value 0, and calling it twice in
immediate succession is the same as calling it once (no
double-scheduling, nothing to throw). -/
theorem stopAllSounds_idempotent_mute (s : AudioSvcState) (h : s.hasContext = true) :
    (∀ g, (stopAllSounds s).bassGain = some g →
      endValue g = 0 ∧ pendingRampCount s.currentTime g = 1 ∧
      g.events.getLast? = some (AutoEvent.linearRamp 0 (s.currentTime + 0.01))) ∧
    (∀ g, (stopAllSounds s).metronomeGain = some g →
      endValue g = 0 ∧ pendingRampCount s.currentTime g = 1 ∧
      g.events.getLast? = some (AutoEvent.linearRamp 0 (s.currentTime + 0.01))) ∧
    stopAllSounds (stopAllSounds s) = stopAllSounds s := by
  obtain ⟨hc, ct, bg, mg, bb, mb, sc⟩ := s
  simp only at h
  subst h
  refine ⟨?_, ?_, ?_⟩
  · intro g hg
    cases bg with
    | none => simp [stopAllSounds] at hg
    | some p =>
      simp only [stopAllSounds, if_true, Option.map_some'] at hg
      rw [Option.some_inj] at hg
      subst hg
      exact ⟨endValue_muteGain _ _, pendingRampCount_muteGain _ _, getLast_muteGain _ _⟩
  · intro g hg
    cases mg with
    | none => simp [stopAllSounds] at hg
    | some p =>
      simp only [stopAllSounds, if_true, Option.map_some'] at hg
      rw [Option.some_inj] at hg
      subst hg
      exact ⟨endValue_muteGain _ _, pendingRampCount_muteGain _ _, getLast_muteGain _ _⟩
  · cases bg <;> cases mg <;> simp [stopAllSounds, muteGain_idem]

/-- Witness for C6: two immediate `stopAllSounds` calls on a freshly
initialized service coincide with one. -/
theorem stopAllSounds_idempotent_mute_witness :
    stopAllSounds (stopAllSounds (initService svc0)) = stopAllSounds (initService svc0) :=
  (stopAllSounds_idempotent_mute (initService svc0) rfl).2.2

/-- C7: `playSound` with the bass buffer unset, and `playMetronomeClick`
with the click buffer unset, leave the audio service state completely
unchanged — no source is created and nothing outside the service (in
particular `BeatCounter`, which lives in the scheduler state) can be
affected. -/
theorem play_before_load_noop (s : AudioSvcState) (muted enabled : Bool) :
    (s.bassBuffer = false → playSound muted s = s) ∧
    (s.metronomeClickBuffer = false → playMetronomeClick enabled s = s) := by
  constructor
  · intro hb
    unfold playSound playSampleNote
    rw [hb]
    simp
  · intro hm
    unfold playMetronomeClick playSampleMetronome
    rw [hm]
    simp

/-- Witness for C7: before sample loading on a freshly initialized
service, both playback entry points are no-ops. -/
theorem play_before_load_noop_witness :
    playSound false (initService svc0) = initService svc0 ∧
    playMetronomeClick true (initService svc0) = initService svc0 :=
  ⟨(play_before_load_noop (initService svc0) false true).1 rfl,
   (play_before_load_noop (initService svc0) false true).2 rfl⟩

/-- C8 counterexample: `setBassVolume` does not clamp — applying level
`3/2` to an initialized service stores `3/2` in the bass master gain,
which differs from the clamped value `min 1 (max 0 (3/2)) = 1` the claim
predicts. -/
theorem setVolume_clamp_counterexample :
    (setBassVolume (3/2) (initService svc0)).bassGain.map AudioParam.value = some (3/2) ∧
    ¬ ((3/2 : ℚ) = min 1 (max 0 (3/2 : ℚ))) := by
  constructor
  · rfl
  · rw [max_eq_right (by norm_num : (0 : ℚ) ≤ 3/2),
      min_eq_left (by norm_num : (1 : ℚ) ≤ 3/2)]
    norm_num

/-- C8 (amended): `setVolume` applies the level directly to the
corresponding master gain with no ramp and no clamping (the other
channel untouched), and `setVolume('bass', 0.3)` reads back exactly
`0.3`. -/
theorem setVolume_direct_no_ramp :
    (∀ (v : ℚ) (s : AudioSvcState) (g : AudioParam), s.bassGain = some g →
      (setBassVolume v s).bassGain = some { value := v, events := g.events } ∧
      (setBassVolume v s).metronomeGain = s.metronomeGain) ∧
    (∀ (v : ℚ) (s : AudioSvcState) (g : AudioParam), s.metronomeGain = some g →
      (setMetronomeVolume v s).metronomeGain = some { value := v, events := g.events } ∧
      (setMetronomeVolume v s).bassGain = s.bassGain) ∧
    (setBassVolume (3/10) (initService svc0)).bassGain.map AudioParam.value = some (3/10) := by
  refine ⟨?_, ?_, rfl⟩
  · intro v s g hg
    unfold setBassVolume
    rw [hg]
    exact ⟨rfl, rfl⟩
  · intro v s g hg
    unfold setMetronomeVolume
    rw [hg]
    exact ⟨rfl, rfl⟩

/-- Witness for C8: setting the bass volume to `3/10` on a freshly
initialized service stores exactly `3/10` with no automation events. -/
theorem setVolume_direct_no_ramp_witness :
    (setBassVolume (3/10) (initService svc0)).bassGain =
      some { value := 3/10, events := ([] : List AutoEvent) } :=
  (setVolume_direct_no_ramp.1 (3/10) (initService svc0)
    { value := 0.7, events := [] } rfl).1

/-- C9: `stop` cancels the driving timer and resets `isPlaying`,
`isPreRoll`, `currentBeat`, `preRollBeat`, `BeatCounter` and
`PreRollCounter` to their initial values, and calling it again changes
nothing further (it is idempotent and total, hence cannot throw). -/
theorem stop_resets_idempotent (s : MetState) :
    (stopMet s).timerActive = false ∧ (stopMet s).isPlaying = false ∧
    (stopMet s).isPreRoll = false ∧ (stopMet s).currentBeat = 0 ∧
    (stopMet s).preRollBeat = 0 ∧ (stopMet s).beatCount = 0 ∧
    (stopMet s).preRollCount = 0 ∧ stopMet (stopMet s) = stopMet s :=
  ⟨rfl, rfl, rfl, rfl, rfl, rfl, rfl, rfl⟩

/-- C10: `seek(p)` (with the audio context available) publishes the
clamped playhead `min 1 (max 0 p)`, which always lies in `[0, 1]`, and
rewrites `startTime` to `now - clamped * loopDuration`. -/
theorem seek_clamps_playhead (tempo loopLength now position : ℚ) (s : LoopState) :
    (seek true tempo loopLength now position s).playhead = min 1 (max 0 position) ∧
    0 ≤ (seek true tempo loopLength now position s).playhead ∧
    (seek true tempo loopLength now position s).playhead ≤ 1 ∧
    (seek true tempo loopLength now position s).startTime =
      now - min 1 (max 0 position) * loopDurationOf tempo loopLength := by
  have hcl : max 0 (min 1 position) = min 1 (max 0 position) := by
    rw [max_min_distrib_left, max_eq_right zero_le_one]
  refine ⟨by simp [seek, hcl], ?_, ?_, by simp [seek, hcl]⟩
  · have : (seek true tempo loopLength now position s).playhead = min 1 (max 0 position) := by
      simp [seek, hcl]
    rw [this]
    exact le_min zero_le_one (le_max_left 0 position)
  · have : (seek true tempo loopLength now position s).playhead = min 1 (max 0 position) := by
      simp [seek, hcl]
    rw [this]
    exact min_le_left 1 (max 0 position)

end BassCore
